import Mathlib

/-!
Verification of the EC go-live gates backend (gates.py, sf_client.py, main.py)
against its natural-language specification.

Shallow embedding conventions:
* Python strings are Lean `String`s; `None`-or-string values are `Option String`
  (`none` covers both a JSON null and an absent key, which `dict.get` conflates).
* Python floats are modelled by `ℚ`; `round(x, 2)` is modelled as rounding to a
  multiple of 1/100 (binary-float artifacts are outside the model).
* `int(x)` truncation toward zero is modelled by `ratTrunc`.
* The HTTP client is an oracle: each fetch the code can issue is a field of
  `SFOracle`, returning `Except String rows` (`_safe_get_all` returns either the
  rows or the stringified exception).
-/

set_option maxRecDepth 4000

/-! ## Python string primitives -/

/-- The ASCII whitespace characters stripped by Python's `str.strip()`. -/
def isPySpace (c : Char) : Bool :=
  c == ' ' || c == '\t' || c == '\n' || c == '\r' || c == '\x0b' || c == '\x0c'

/-- `str.strip()` on a character list: drop whitespace from both ends. -/
def pyStripL (l : List Char) : List Char :=
  ((l.dropWhile isPySpace).reverse.dropWhile isPySpace).reverse

/-- `str.strip()`. -/
def pyStrip (s : String) : String := ⟨pyStripL s.data⟩

/-- `str.lower()` (inputs in this system are ASCII). -/
def pyLower (s : String) : String := ⟨s.data.map Char.toLower⟩

/-- `str(v)` for an optional string value: Python renders `None` as `"None"`. -/
def pyStr : Option String → String
  | none => "None"
  | some s => s

/-! ## sf_client.py -/

/-- `str.rstrip("/")`: drop trailing `'/'` characters. -/
def rstripSlash (s : String) : String :=
  ⟨(s.data.reverse.dropWhile (fun c => c == '/')).reverse⟩

/-- sf_client.py `normalize_base_url`: strip surrounding whitespace, return ""
if the result is empty, else strip trailing slashes.  (`u or ""` on the Python
side turns `None` into `""`, so a plain `String` argument suffices.) -/
def normalize_base_url (u : String) : String :=
  if pyStrip u = "" then "" else rstripSlash (pyStrip u)

/-- sf_client.py `SFClient.get_all`, the paging loop, with explicit fuel.  The
server is an oracle mapping the `$skip` offset to the returned page
(`results`); the loop body reads the page once, so writing `oracle skip` twice
below denotes the same single response.  The source loop is `while True`, so a
fuel-indexed model returns `none` when the loop has not finished within `fuel`
iterations. -/
def getAllAux (top : Nat) (oracle : Nat → List α) :
    Nat → Nat → List α → Option (List α)
  | 0, _, _ => none
  | fuel + 1, skip, out =>
    if (oracle skip).isEmpty then some out
    else if (oracle skip).length < top then some (out ++ oracle skip)
    else getAllAux top oracle fuel (skip + top) (out ++ oracle skip)

/-- `get_all` starting from `$skip = 0` with an empty accumulator. -/
def getAllFuel (top : Nat) (oracle : Nat → List α) (fuel : Nat) :
    Option (List α) :=
  getAllAux top oracle fuel 0 []

/-- The concatenation of the first `n` pages, page `i` being the server's
response to `$skip = skip + i * top`. -/
def pagesFrom (oracle : Nat → List α) (top skip : Nat) : Nat → List α
  | 0 => []
  | n + 1 => oracle skip ++ pagesFrom oracle top (skip + top) n

/-- A server that answers every `$skip` with a full page of 1000 rows. -/
def fullPages : Nat → List Nat := fun _ => List.replicate 1000 0

/-- The paging loop terminates against `oracle`: some finite amount of fuel
suffices for the `while True` loop to exit. -/
def getAllTerminates (top : Nat) (oracle : Nat → List α) : Prop :=
  ∃ fuel, (getAllFuel top oracle fuel).isSome

/-! ## gates.py: row models

Rows arrive as JSON dicts; the embedding keeps each selected field.  Values
are modelled after Python's coercions have been fixed: `emplStatus` is the
result of the source's `int(...)` parse (`none` covers an absent key, a JSON
null, and an unparseable value — all of which the source maps to a missing
code), all other fields are optional strings. `employeeClass` appears upstream
but is never part of any `$select` gates.py issues and is never read by it. -/

structure URow where
  userId : Option String
  status : Option String
  email : Option String
  username : Option String
deriving DecidableEq

structure JRow where
  userId : Option String
  managerId : Option String
  company : Option String
  businessUnit : Option String
  division : Option String
  department : Option String
  location : Option String
  emplStatus : Option Int
  employeeClass : Option String
deriving DecidableEq

structure ERow where
  userId : Option String
  isContingentWorker : Option String
deriving DecidableEq

/-! ## gates.py: utilities -/

/-- gates.py `is_blank`: `v is None or str(v).strip() == ""`. -/
def is_blank (v : Option String) : Bool :=
  match v with
  | none => true
  | some s => pyStrip s == ""

/-- gates.py `is_missing_email_value`: null, or the trimmed lower-cased value
is one of the placeholder tokens. -/
def is_missing_email_value (v : Option String) : Bool :=
  match v with
  | none => true
  | some s =>
    let t := pyLower (pyStrip s)
    t == "" || t == "none" || t == "no_email" || t == "no email" || t == "null" ||
      t == "n/a" || t == "na" || t == "-" || t == "undefined"

/-- gates.py `_user_is_active`: `str(u.get("status", "")).strip().lower()` is
one of the active tokens.  An absent key gives `""` and a JSON null gives
`"None"`; neither is an active token, so `none ↦ false` is faithful for both. -/
def _user_is_active (u : URow) : Bool :=
  match u.status with
  | none => false
  | some s =>
    let t := pyLower (pyStrip s)
    t == "active" || t == "t" || t == "true" || t == "1" || t == "a"

/-- gates.py `_status_display`.  `not name` in the source is Python falsiness,
so `none` and `some ""` behave alike; both are covered by `name.getD ""`. -/
def _status_display (code : Option Int) (name : Option String) : String :=
  let n : String := name.getD ""
  match code with
  | none => n
  | some c => if n ≠ "" then n ++ " (" ++ toString c ++ ")" else toString c

/-! ## Python dicts as insertion-ordered association lists -/

/-- `d[k] = v` on an insertion-ordered dict: update in place or append. -/
def dictInsert (k : String) (v : α) : List (String × α) → List (String × α)
  | [] => [(k, v)]
  | (k0, v0) :: rest => if k0 = k then (k0, v) :: rest else (k0, v0) :: dictInsert k v rest

/-- `d.get(k)`. -/
def dictGet (d : List (String × α)) (k : String) : Option α :=
  match d.find? (fun p => p.1 == k) with
  | some p => some p.2
  | none => none

/-- `defaultdict(list)`: `d[k].append(v)`. -/
def dictAppend (k : String) (v : β) : List (String × List β) → List (String × List β)
  | [] => [(k, [v])]
  | (k0, vs) :: rest => if k0 = k then (k0, vs ++ [v]) :: rest else (k0, vs) :: dictAppend k v rest

/-- Lookup in the `optionId → label` map (`status_labels.get(code)`). -/
def lookupCode (d : List (Int × String)) (k : Int) : Option String :=
  match d.find? (fun p => p.1 == k) with
  | some p => some p.2
  | none => none

/-! ## gates.py: classification stage (run_ec_gates lines 164–326) -/

/-- `user_by_id`: keyed by `str(uid)` for users with a non-blank `userId`
(lines 171–175). -/
def buildUserById (users : List URow) : List (String × URow) :=
  users.foldl (fun d u =>
    match u.userId with
    | none => d
    | some s => if pyStrip s == "" then d else dictInsert s u d) []

/-- `empjob_by_uid` (lines 253–257). -/
def buildEmpjobByUid (jobs : List JRow) : List (String × JRow) :=
  jobs.foldl (fun d j =>
    match j.userId with
    | none => d
    | some s => if pyStrip s == "" then d else dictInsert s j d) []

/-- `empl_codes` (lines 216–226): every parseable `emplStatus` value, in row
order, duplicates kept.  (The `int(v)` / digit-string parse is folded into the
`Option Int` field model.) -/
def empl_codes (jobs : List JRow) : List Int :=
  jobs.filterMap (fun j => j.emplStatus)

/-- `_emplStatusName` attached to a job row (lines 234–243). -/
def emplStatusName (labels : List (Int × String)) (j : JRow) : Option String :=
  match j.emplStatus with
  | some c => lookupCode labels c
  | none => none

/-- `_emplStatusDisplay` attached to a job row (line 244). -/
def emplStatusDisplay (labels : List (Int × String)) (j : JRow) : String :=
  _status_display j.emplStatus (emplStatusName labels j)

/-- Distinct values of a list in order of first occurrence (the key order of
`collections.Counter` built from the list). -/
def firstOccs (l : List Int) : List Int :=
  l.foldl (fun acc x => if acc.contains x then acc else acc ++ [x]) []

/-- Multiplicity of `x` in `l`. -/
def countInt (l : List Int) (x : Int) : Nat :=
  (l.filter (fun y => y == x)).length

/-- `Counter(l).most_common(1)[0][0]`: the value with the largest multiplicity,
the earliest first occurrence winning ties (heapq.nlargest is stable on the
Counter's insertion order); `none` iff `l` is empty. -/
def mostCommon (l : List Int) : Option Int :=
  (firstOccs l).foldl (fun best x =>
    match best with
    | none => some x
    | some b => if countInt l x > countInt l b then some x else best) none

/-- Lines 263–268: the first code in the label map whose label, trimmed and
lower-cased, equals "active".  (`find?` on an empty map is `none`, which also
covers the `if status_labels:` guard.) -/
def findActiveByLabel (labels : List (Int × String)) : Option (Int × String) :=
  labels.find? (fun p => pyLower (pyStrip p.2) == "active")

/-- Lines 259–289: infer the run-wide active `emplStatus` code and its label.
Priority: label match, then the mode of codes of `User.status`-active users,
then the globally most common code. -/
def inferActiveCode (labels : List (Int × String)) (userById : List (String × URow))
    (empjobByUid : List (String × JRow)) (codes : List Int) :
    Option Int × Option String :=
  match findActiveByLabel labels with
  | some (c, n) => (some c, some n)
  | none =>
    let candidates : List Int := userById.filterMap (fun p =>
      if _user_is_active p.2 then
        match dictGet empjobByUid p.1 with
        | some j => j.emplStatus
        | none => none
      else none)
    match mostCommon candidates with
    | some c => (some c, lookupCode labels c)
    | none =>
      match mostCommon codes with
      | some c => (some c, lookupCode labels c)
      | none => (none, none)

/-- The fallback per-row activity test of lines 309–315: look the row's
`str(userId)` up in `user_by_id` and apply `_user_is_active` (an absent user
behaves like `{}`, which is inactive). -/
def userFlagActive (userById : List (String × URow)) (j : JRow) : Bool :=
  match dictGet userById (pyStr j.userId) with
  | some u => _user_is_active u
  | none => false

/-- Lines 294–316: split the job rows into active and inactive and record the
provenance string.  With an inferred code, a row is active iff its code equals
it; otherwise the per-row `User.status` fallback applies. -/
def classifyJobs (inferred : Option Int) (inferredName : Option String)
    (userById : List (String × URow)) (jobs : List JRow) :
    List JRow × List JRow × String :=
  match inferred with
  | some c =>
    let src := "EmpJob.emplStatus (active_code inferred=" ++ toString c ++ ")"
    let src := match inferredName with
      | some n => if n ≠ "" then src ++ " aka \x27" ++ n ++ "\x27" else src
      | none => src
    (jobs.filter (fun j => j.emplStatus == some c),
     jobs.filter (fun j => !(j.emplStatus == some c)), src)
  | none =>
    (jobs.filter (fun j => userFlagActive userById j),
     jobs.filter (fun j => !userFlagActive userById j),
     "fallback(User.status) (no emplStatus inference possible)")

/-! ## gates.py: email hygiene (lines 329–357) -/

/-- `active_uids`: `str(userId)` of active rows with a non-blank `userId`. -/
def active_uids (activeJobs : List JRow) : List String :=
  activeJobs.filterMap (fun j =>
    match j.userId with
    | none => none
    | some s => if pyStrip s == "" then none else some s)

/-- The `email` local of the loop body: `""` when the user row is absent or the
email is null, else the stripped email. -/
def emailStringOf (userById : List (String × URow)) (uid : String) : String :=
  match dictGet userById uid with
  | some u =>
    match u.email with
    | none => ""
    | some s => pyStrip s
  | none => ""

/-- `u.get("username")` for the sample entry. -/
def usernameOf (userById : List (String × URow)) (uid : String) : Option String :=
  match dictGet userById uid with
  | some u => u.username
  | none => none

structure MissEmailEntry where
  userId : String
  email : String
  username : Option String
deriving DecidableEq

def mkMissEmailEntry (userById : List (String × URow)) (uid : String) : MissEmailEntry :=
  ⟨uid, emailStringOf userById uid, usernameOf userById uid⟩

/-- The loop of lines 337–348, as a left-to-right scan: missing-email count,
capped missing-email sample, and the `email_to_users` groups keyed by the
lower-cased stripped email. -/
def emailScanAux (userById : List (String × URow)) :
    List String → Nat → List MissEmailEntry → List (String × List String) →
    Nat × List MissEmailEntry × List (String × List String)
  | [], cnt, sample, groups => (cnt, sample, groups)
  | uid :: rest, cnt, sample, groups =>
    if is_missing_email_value (some (emailStringOf userById uid)) then
      emailScanAux userById rest (cnt + 1)
        (if sample.length < 200 then sample ++ [mkMissEmailEntry userById uid] else sample)
        groups
    else
      emailScanAux userById rest cnt sample
        (dictAppend (pyLower (emailStringOf userById uid)) uid groups)

def emailScan (userById : List (String × URow)) (uids : List String) :
    Nat × List MissEmailEntry × List (String × List String) :=
  emailScanAux userById uids 0 [] []

/-- Line 350: each group with more than one member contributes
`groupSize - 1`. -/
def duplicate_email_count (groups : List (String × List String)) : Nat :=
  ((groups.filter (fun p => 1 < p.2.length)).map (fun p => p.2.length - 1)).sum

structure DupRow where
  email : String
  count : Nat
  sampleUserIds : List String
deriving DecidableEq

/-- Lines 352–355: one row per duplicated group, member display capped at 10. -/
def dup_rows (groups : List (String × List String)) : List DupRow :=
  (groups.filter (fun p => 1 < p.2.length)).map
    (fun p => ⟨p.1, p.2.length, p.2.take 10⟩)

/-- One step of a stable descending insertion by `count`: the new element goes
after every element with a count ≥ its own, matching Python's stable
`sort(key=..., reverse=True)`. -/
def insertDescByCount (ys : List DupRow) (x : DupRow) : List DupRow :=
  match ys with
  | [] => [x]
  | y :: ys0 => if x.count ≤ y.count then y :: insertDescByCount ys0 x else x :: y :: ys0

/-- Line 356: `dup_rows.sort(key=lambda x: x["count"], reverse=True)`. -/
def sortByCountDesc (l : List DupRow) : List DupRow :=
  l.foldl insertDescByCount []

/-- Line 357. -/
def duplicate_email_sample (groups : List (String × List String)) : List DupRow :=
  (sortByCountDesc (dup_rows groups)).take 200

/-! ## gates.py: org & manager checks (lines 360–408) -/

inductive OrgField
  | company | businessUnit | division | department | location
deriving DecidableEq

def orgFieldName : OrgField → String
  | .company => "company"
  | .businessUnit => "businessUnit"
  | .division => "division"
  | .department => "department"
  | .location => "location"

def getOrg : OrgField → JRow → Option String
  | .company => fun j => j.company
  | .businessUnit => fun j => j.businessUnit
  | .division => fun j => j.division
  | .department => fun j => j.department
  | .location => fun j => j.location

def ORG_FIELDS : List OrgField :=
  [.company, .businessUnit, .division, .department, .location]

/-- Line 387: the org fields blank on this row, in `ORG_FIELDS` order. -/
def missingFields (j : JRow) : List OrgField :=
  ORG_FIELDS.filter (fun f => is_blank (getOrg f j))

structure MMEntry where
  userId : Option String
  employeeStatus : String
  emplStatusCode : Option Int
  emplStatusName : Option String
  managerId : Option String
deriving DecidableEq

def mkMMEntry (labels : List (Int × String)) (j : JRow) : MMEntry :=
  ⟨j.userId, emplStatusDisplay labels j, j.emplStatus, emplStatusName labels j, j.managerId⟩

structure IOEntry where
  userId : Option String
  employeeStatus : String
  emplStatusCode : Option Int
  emplStatusName : Option String
  missingFieldsJoined : String
  company : Option String
  businessUnit : Option String
  division : Option String
  department : Option String
  location : Option String
  managerId : Option String
deriving DecidableEq

def mkIOEntry (labels : List (Int × String)) (j : JRow) : IOEntry :=
  ⟨j.userId, emplStatusDisplay labels j, j.emplStatus, emplStatusName labels j,
    String.intercalate ", " ((missingFields j).map orgFieldName),
    j.company, j.businessUnit, j.division, j.department, j.location, j.managerId⟩

/-- `org_missing_field_counts[f] += 1`. -/
def bumpCount (k : String) : List (String × Nat) → List (String × Nat)
  | [] => []
  | (k0, n) :: rest => if k0 = k then (k0, n + 1) :: rest else (k0, n) :: bumpCount k rest

/-- `{k: 0 for k in ORG_FIELDS}`. -/
def initFieldCounts : List (String × Nat) :=
  ORG_FIELDS.map (fun f => (orgFieldName f, 0))

structure OrgScanState where
  mmCount : Nat
  mmSample : List MMEntry
  ioCount : Nat
  ioSample : List IOEntry
  fieldCounts : List (String × Nat)
deriving DecidableEq

/-- One iteration of the loop of lines 370–408 for the row `j`. -/
def orgStep (labels : List (Int × String)) (j : JRow) (st : OrgScanState) : OrgScanState :=
  let st1 :=
    if is_blank j.managerId then
      { st with
        mmCount := st.mmCount + 1,
        mmSample :=
          if st.mmSample.length < 200 then st.mmSample ++ [mkMMEntry labels j]
          else st.mmSample }
    else st
  if (missingFields j).isEmpty then st1
  else
    { st1 with
      ioCount := st1.ioCount + 1,
      fieldCounts :=
        (missingFields j).foldl (fun fc f => bumpCount (orgFieldName f) fc) st1.fieldCounts,
      ioSample :=
        if st1.ioSample.length < 200 then st1.ioSample ++ [mkIOEntry labels j]
        else st1.ioSample }

/-- The loop of lines 370–408 over the active rows. -/
def orgScanAux (labels : List (Int × String)) :
    List JRow → OrgScanState → OrgScanState
  | [], st => st
  | j :: rest, st => orgScanAux labels rest (orgStep labels j st)

def orgScan (labels : List (Int × String)) (activeJobs : List JRow) : OrgScanState :=
  orgScanAux labels activeJobs ⟨0, [], 0, [], initFieldCounts⟩

/-! ## gates.py: inactive sample and contingent workers (lines 413–468) -/

structure StatusEntry where
  userId : Option String
  employeeStatus : String
  emplStatusCode : Option Int
  emplStatusName : Option String
deriving DecidableEq

/-- Lines 413–422. -/
def inactive_users_sample (labels : List (Int × String)) (inactiveJobs : List JRow) :
    List StatusEntry :=
  (inactiveJobs.take 200).map (fun j =>
    ⟨j.userId, emplStatusDisplay labels j, j.emplStatus, emplStatusName labels j⟩)

/-- `str(flag).strip().lower() in ("true", "t", "1", "yes", "y")`; `str(None)`
is `"None"`, which is not a true token. -/
def contingentFlagTrue (flag : Option String) : Bool :=
  let t := pyLower (pyStrip (pyStr flag))
  t == "true" || t == "t" || t == "1" || t == "yes" || t == "y"

/-- Lines 446–454: the set of userIds flagged contingent.  CPython's set
iteration order is unspecified; the model keeps insertion order, and only the
cardinality and membership of this set are used in theorems. -/
def contingentUids (rows : List ERow) : List String :=
  rows.foldl (fun acc r =>
    match r.userId with
    | none => acc
    | some uid =>
      if pyStrip uid == "" then acc
      else if contingentFlagTrue r.isContingentWorker then
        if acc.contains uid then acc else acc ++ [uid]
      else acc) []

structure ContEntry where
  userId : String
  isContingentWorker : Bool
  employeeStatus : Option String
  emplStatusCode : Option Int
  emplStatusName : Option String
deriving DecidableEq

/-- Lines 458–468; for a uid without a job row, `empjob_by_uid.get(uid, {})`
yields `{}`, whose derived fields read as null. -/
def contingent_workers_sample (labels : List (Int × String))
    (empjobByUid : List (String × JRow)) (uids : List String) : List ContEntry :=
  (uids.take 200).map (fun uid =>
    match dictGet empjobByUid uid with
    | some j => ⟨uid, true, some (emplStatusDisplay labels j), j.emplStatus,
        emplStatusName labels j⟩
    | none => ⟨uid, true, none, none, none⟩)

/-! ## gates.py: risk score (lines 473–485) -/

/-- Python `int(q)`: truncation toward zero. -/
def ratTrunc (q : ℚ) : ℤ :=
  if q < 0 then -(Int.floor (-q)) else Int.floor q

/-- `round(q, 2)` modelled over ℚ: round to the nearest multiple of 1/100
(Python rounds binary floats half-to-even; the difference can only show at
exact .005 boundaries, which binary floats cannot represent anyway). -/
def pyRound2 (q : ℚ) : ℚ := ((round (q * 100) : ℤ) : ℚ) / 100

/-- Lines 473–474: `pct`. -/
def pct (totalActive x : Nat) : ℚ :=
  if totalActive = 0 then 0 else pyRound2 ((x : ℚ) / (totalActive : ℚ) * 100)

/-- Lines 480–485: the bounded risk score. -/
def riskOf (mm io me dup ta : Nat) : ℤ :=
  min 100
    (min 40 (ratTrunc (pct ta mm * 2)) +
     min 40 (ratTrunc (pct ta io * 2)) +
     min 10 (ratTrunc (pct ta me)) +
     min 10 (ratTrunc ((dup : ℚ) / ((max 1 ta : Nat) : ℚ) * 100)))

/-! ## gates.py: acquisition and the assembled run (lines 155–534)

Each network fetch `run_ec_gates` can issue is a field of `SFOracle`; a value
`Except.error e` is `_safe_get_all` returning `([], "<type>: <msg>")`.  The
internals of `_fetch_status_labels` are pure network traffic (PicklistLabel /
PicklistOption strategies); its outcome — a code→label map plus a provenance
string — is the `labelFetch` oracle field, with the deterministic
`if not option_ids` shortcut kept in the model (`fetchStatusLabels`). -/

structure SFOracle where
  userResp : Except String (List URow)
  empJobFiltered : String → Except String (List JRow)
  empJobNoFilter : String → Except String (List JRow)
  labelFetch : List Int → List (Int × String) × String
  empEmpFiltered : Except String (List ERow)
  empEmpNoFilter : Except String (List ERow)

/-- Lines 181–186: the four `$select` fallbacks for EmpJob. -/
def empjob_selects : List String :=
  ["userId,managerId,company,businessUnit,division,department,location,emplStatus,effectiveLatestChange",
   "userId,managerId,company,businessUnit,division,department,location,emplStatus",
   "userId,managerId,company,businessUnit,division,department,location,effectiveLatestChange",
   "userId,managerId,company,businessUnit,division,department,location"]

/-- Lines 167–169: the User fetch; on failure the run keeps an empty user list
and records the error. -/
def fetchUsers (orc : SFOracle) : List URow × List (String × String) :=
  match orc.userResp with
  | .ok rows => (rows, [])
  | .error e => ([], [("User", e)])

/-- Lines 188–200: first filtered select that succeeds wins; every failure
before that is recorded under `EmpJob(<select>)`.  If none succeeds the rows
stay `[]` and the source string stays `"EmpJob"`. -/
def empJobCascade1 (orc : SFOracle) :
    List String → List (String × String) → List JRow × String × List (String × String)
  | [], errs => ([], "EmpJob", errs)
  | sel :: rest, errs =>
    match orc.empJobFiltered sel with
    | .ok rows => (rows, "EmpJob(select=" ++ sel ++ ")", errs)
    | .error e => empJobCascade1 orc rest (dictInsert ("EmpJob(" ++ sel ++ ")") e errs)

/-- Lines 203–211: if the filtered cascade produced no rows, retry without the
filter; only a success with a non-empty row set wins, and every failure is
recorded under `EmpJob(no-filter,<select>)`. -/
def empJobCascade2 (orc : SFOracle) :
    List String → List JRow × String × List (String × String) →
    List JRow × String × List (String × String)
  | [], acc => acc
  | sel :: rest, acc =>
    match orc.empJobNoFilter sel with
    | .ok rows =>
      if rows.isEmpty then empJobCascade2 orc rest acc
      else (rows, "EmpJob(no-filter, select=" ++ sel ++ ")", acc.2.2)
    | .error e =>
      empJobCascade2 orc rest
        (acc.1, acc.2.1, dictInsert ("EmpJob(no-filter," ++ sel ++ ")") e acc.2.2)

/-- Lines 63–66: the deterministic prelude of `_fetch_status_labels`. -/
def fetchStatusLabels (orc : SFOracle) (ids : List Int) : List (Int × String) × String :=
  if ids.isEmpty then ([], "no-status-codes") else orc.labelFetch ids

/-- Lines 427–444: the EmpEmployment fetch with its no-filter fallback; the
result is the row set, the `contingent_source` provenance, and the errors map
extended on double failure. -/
def fetchEmpEmp (orc : SFOracle) (errs : List (String × String)) :
    List ERow × String × List (String × String) :=
  match orc.empEmpFiltered with
  | .ok rows => (rows, "EmpEmployment.isContingentWorker", errs)
  | .error _ =>
    match orc.empEmpNoFilter with
    | .ok rows2 => (rows2, "EmpEmployment.isContingentWorker (no-filter)", errs)
    | .error e2 => ([], "not-available", dictInsert "EmpEmployment" e2 errs)

/-! The run, decomposed stage by stage so that theorems can name intermediate
values; `run_ec_gates` below assembles the same metrics dict the source
returns.  (The purely diagnostic `status_distribution` histogram, lines
322–326, is the one output key not modelled; no claim touches it.) -/

def gatesUsers (orc : SFOracle) : List URow := (fetchUsers orc).1

def gatesUserById (orc : SFOracle) : List (String × URow) :=
  buildUserById (gatesUsers orc)

def gatesEmpJobSel (orc : SFOracle) : List JRow × String × List (String × String) :=
  let c1 := empJobCascade1 orc empjob_selects (fetchUsers orc).2
  if c1.1.isEmpty then empJobCascade2 orc empjob_selects c1 else c1

def gatesJobs (orc : SFOracle) : List JRow := (gatesEmpJobSel orc).1

def gatesCodes (orc : SFOracle) : List Int := empl_codes (gatesJobs orc)

def gatesLabels (orc : SFOracle) : List (Int × String) :=
  (fetchStatusLabels orc (gatesCodes orc)).1

def gatesEmpjobByUid (orc : SFOracle) : List (String × JRow) :=
  buildEmpjobByUid (gatesJobs orc)

def gatesInferred (orc : SFOracle) : Option Int × Option String :=
  inferActiveCode (gatesLabels orc) (gatesUserById orc) (gatesEmpjobByUid orc) (gatesCodes orc)

def gatesClassified (orc : SFOracle) : List JRow × List JRow × String :=
  classifyJobs (gatesInferred orc).1 (gatesInferred orc).2 (gatesUserById orc) (gatesJobs orc)

def gatesActiveJobs (orc : SFOracle) : List JRow := (gatesClassified orc).1

def gatesInactiveJobs (orc : SFOracle) : List JRow := (gatesClassified orc).2.1

def gatesActiveUids (orc : SFOracle) : List String := active_uids (gatesActiveJobs orc)

def gatesEmailScan (orc : SFOracle) :
    Nat × List MissEmailEntry × List (String × List String) :=
  emailScan (gatesUserById orc) (gatesActiveUids orc)

def gatesOrgScan (orc : SFOracle) : OrgScanState :=
  orgScan (gatesLabels orc) (gatesActiveJobs orc)

def gatesEmpEmp (orc : SFOracle) : List ERow × String × List (String × String) :=
  fetchEmpEmp orc (gatesEmpJobSel orc).2.2

def gatesContingentUids (orc : SFOracle) : List String :=
  contingentUids (gatesEmpEmp orc).1

/-- gates.py `run_ec_gates`, assembling the metrics record of lines 490–532.
`now` stands for `datetime.now(timezone.utc).isoformat()`.  Note that the
function is total: every acquisition failure is swallowed into `errors` and a
metrics record is returned regardless. -/
structure Metrics where
  snapshot_time_utc : String
  active_users : Nat
  inactive_users : Nat
  empjob_rows : Nat
  missing_manager_count : Nat
  missing_manager_pct : ℚ
  invalid_org_count : Nat
  invalid_org_pct : ℚ
  missing_email_count : Nat
  duplicate_email_count : Nat
  contingent_workers : Nat
  contingent_source : String
  risk_score : ℤ
  employee_status_source : String
  empjob_source : String
  emplstatus_label_source : String
  active_emplStatus_code_inferred : Option Int
  active_emplStatus_name_inferred : Option String
  missing_email_sample : List MissEmailEntry
  duplicate_email_sample : List DupRow
  invalid_org_sample : List IOEntry
  org_missing_field_counts : List (String × Nat)
  missing_manager_sample : List MMEntry
  inactive_users_sample : List StatusEntry
  contingent_workers_sample : List ContEntry
  errors : List (String × String)

def run_ec_gates (now : String) (orc : SFOracle) : Metrics :=
  { snapshot_time_utc := now
    active_users := (gatesActiveJobs orc).length
    inactive_users := (gatesInactiveJobs orc).length
    empjob_rows := (gatesJobs orc).length
    missing_manager_count := (gatesOrgScan orc).mmCount
    missing_manager_pct := pct (gatesActiveJobs orc).length (gatesOrgScan orc).mmCount
    invalid_org_count := (gatesOrgScan orc).ioCount
    invalid_org_pct := pct (gatesActiveJobs orc).length (gatesOrgScan orc).ioCount
    missing_email_count := (gatesEmailScan orc).1
    duplicate_email_count := duplicate_email_count (gatesEmailScan orc).2.2
    contingent_workers := (gatesContingentUids orc).length
    contingent_source := (gatesEmpEmp orc).2.1
    risk_score := riskOf (gatesOrgScan orc).mmCount (gatesOrgScan orc).ioCount
      (gatesEmailScan orc).1 (duplicate_email_count (gatesEmailScan orc).2.2)
      (gatesActiveJobs orc).length
    employee_status_source := (gatesClassified orc).2.2
    empjob_source := (gatesEmpJobSel orc).2.1
    emplstatus_label_source := (fetchStatusLabels orc (gatesCodes orc)).2
    active_emplStatus_code_inferred := (gatesInferred orc).1
    active_emplStatus_name_inferred := (gatesInferred orc).2
    missing_email_sample := (gatesEmailScan orc).2.1
    duplicate_email_sample := duplicate_email_sample (gatesEmailScan orc).2.2
    invalid_org_sample := (gatesOrgScan orc).ioSample
    org_missing_field_counts := (gatesOrgScan orc).fieldCounts
    missing_manager_sample := (gatesOrgScan orc).mmSample
    inactive_users_sample := inactive_users_sample (gatesLabels orc) (gatesInactiveJobs orc)
    contingent_workers_sample := contingent_workers_sample (gatesLabels orc)
      (gatesEmpjobByUid orc) (gatesContingentUids orc)
    errors := (gatesEmpEmp orc).2.2 }

/-! ## main.py: the persistence guard of run_now (lines 153–155) -/

/-- `if not metrics or not metrics.get("snapshot_time_utc")`: the metrics dict
returned by `run_ec_gates` is never empty, so the guard blocks exactly when
`snapshot_time_utc` is falsy, i.e. the empty string.  (`run_ec_gates` always
sets it to `now.isoformat()`, which is never empty.) -/
def guard_blocks (m : Metrics) : Bool := m.snapshot_time_utc == ""

/-! ## Concrete inputs used by counterexamples and witnesses -/

/-- An oracle on which every EmpJob acquisition attempt (filtered and
unfiltered, all four selects) fails, while the User fetch succeeds. -/
def failAllJobsOracle : SFOracle :=
  { userResp := .ok [⟨some "U1", some "active", some "u1@x.com", some "u1"⟩]
    empJobFiltered := fun _ => .error "HTTPError: 400 Client Error"
    empJobNoFilter := fun _ => .error "HTTPError: 400 Client Error"
    labelFetch := fun _ => ([], "labels blocked/unavailable")
    empEmpFiltered := .ok []
    empEmpNoFilter := .ok [] }

/-- A job row whose upstream `employeeClass` is `"Contractor"` (a field
gates.py never selects or reads). -/
def c4Job : JRow :=
  ⟨some "U1", some "M1", some "C", some "BU", some "DV", some "DP", some "LC",
    none, some "Contractor"⟩

/-- Oracle: Jobs fetch succeeds with `c4Job`; both EmpEmployment attempts
fail. -/
def c4Oracle : SFOracle :=
  { userResp := .ok []
    empJobFiltered := fun _ => .ok [c4Job]
    empJobNoFilter := fun _ => .ok [c4Job]
    labelFetch := fun _ => ([], "labels blocked/unavailable")
    empEmpFiltered := .error "HTTPError: 403 Forbidden"
    empEmpNoFilter := .error "HTTPError: 403 Forbidden" }

def c5Job : JRow :=
  ⟨some "U1", some "M1", some "C", some "BU", some "DV", some "DP", some "LC",
    some 1, none⟩

/-- Oracle: one active job for U1 but no Users rows at all. -/
def c5Oracle : SFOracle :=
  { userResp := .ok []
    empJobFiltered := fun _ => .ok [c5Job]
    empJobNoFilter := fun _ => .ok [c5Job]
    labelFetch := fun _ => ([(1, "Active")], "PicklistLabel(locale=en_US, suffix=none)")
    empEmpFiltered := .ok []
    empEmpNoFilter := .ok [] }

def c2job1 : JRow :=
  ⟨some "U1", some "M1", some "C", some "BU", some "DV", some "DP", some "LC",
    some 1, none⟩

def c2job2 : JRow :=
  ⟨some "U2", some "M1", some "C", some "BU", some "DV", some "DP", some "LC",
    some 2, none⟩

def c2jobs : List JRow := [c2job1, c2job2]

/-- Two distinct codes whose labels both normalize to "active". -/
def c2labels : List (Int × String) := [(1, "Active"), (2, "Active")]

def c2inf : Option Int × Option String :=
  inferActiveCode c2labels [] [] (empl_codes c2jobs)

def c2wJob : JRow :=
  ⟨some "W1", some "M1", some "C", some "BU", some "DV", some "DP", some "LC",
    some 7, none⟩

def c3jobA : JRow :=
  ⟨some "A", some "M1", some "C", some "BU", some "DV", some "DP", some "LC",
    some 1, none⟩

/-- A job row with no status code at all. -/
def c3jobB : JRow :=
  ⟨some "B", some "M1", some "C", some "BU", some "DV", some "DP", some "LC",
    none, none⟩

def c3jobs : List JRow := [c3jobA, c3jobB]

/-- B's identity-source row says active. -/
def c3userB : URow := ⟨some "B", some "active", some "b@x.com", some "b"⟩

def c3labels : List (Int × String) := [(1, "Active")]

def c3inf : Option Int × Option String :=
  inferActiveCode c3labels (buildUserById [c3userB]) (buildEmpjobByUid c3jobs)
    (empl_codes c3jobs)

/-- An oracle with no rows anywhere (used to instantiate run-level
witnesses). -/
def emptyOracle : SFOracle :=
  { userResp := .ok []
    empJobFiltered := fun _ => .ok []
    empJobNoFilter := fun _ => .ok []
    labelFetch := fun _ => ([], "no-status-codes")
    empEmpFiltered := .ok []
    empEmpNoFilter := .ok [] }

/-! ## More definitions used by C5/C6/C7/C8 -/

/-- Total number of members across all email groups. -/
def groupsTotal (g : List (String × List String)) : Nat :=
  (g.map (fun p => p.2.length)).sum

def c5wUser : URow := ⟨some "W1", some "active", some "w@x.com", some "w"⟩

def c5wById : List (String × URow) := buildUserById [c5wUser]

def c5wUids : List String := ["W1", "W1"]

def c7Users : List URow :=
  [⟨some "U1", some "active", some "a@x.com", some "u1"⟩,
   ⟨some "U2", some "active", some "a@x.com", some "u2"⟩,
   ⟨some "U3", some "active", some "a@x.com", some "u3"⟩,
   ⟨some "U4", some "active", some "b@x.com", some "u4"⟩,
   ⟨some "U5", some "active", some "b@x.com", some "u5"⟩,
   ⟨some "U6", some "active", some "c@x.com", some "u6"⟩]

def c7UById : List (String × URow) := buildUserById c7Users

def c7Uids : List String := ["U1", "U2", "U3", "U4", "U5", "U6"]


/-! ## C8: sample consistency -/

def c8j1 : JRow :=
  ⟨some "U1", none, some "C", some "BU", some "DV", none, some "LC", some 1, none⟩

def c8j2 : JRow :=
  ⟨some "U2", some "M", some "C", some "BU", some "DV", some "DP", some "LC", some 1, none⟩

def c8j3 : JRow :=
  ⟨some "U3", some "M", some "C", some "BU", some "DV", some "DP", some "LC", some 1, none⟩

def c8Users : List URow :=
  [⟨some "U1", some "active", some "none", some "u1"⟩,
   ⟨some "U2", some "active", some "d@x.com", some "u2"⟩,
   ⟨some "U3", some "active", some "D@x.com ", some "u3"⟩]

/-- Oracle with one blank-manager/blank-department row, one placeholder email,
and one duplicated email pair. -/
def c8Oracle : SFOracle :=
  { userResp := .ok c8Users
    empJobFiltered := fun _ => .ok [c8j1, c8j2, c8j3]
    empJobNoFilter := fun _ => .ok [c8j1, c8j2, c8j3]
    labelFetch := fun _ => ([(1, "Active")], "PicklistLabel(locale=en_US, suffix=none)")
    empEmpFiltered := .ok []
    empEmpNoFilter := .ok [] }


/-! ## Lemmas about normalize_base_url -/

theorem dropWhile_dropWhile (p : α → Bool) (l : List α) :
    (l.dropWhile p).dropWhile p = l.dropWhile p := by
  induction l with
  | nil => rfl
  | cons a l ih =>
    by_cases h : p a
    · simp [List.dropWhile, h, ih]
    · simp [List.dropWhile, h]

theorem rstripSlash_idem (s : String) : rstripSlash (rstripSlash s) = rstripSlash s := by
  unfold rstripSlash
  simp [dropWhile_dropWhile]

/-! ## C9 lemmas -/

theorem getAllAux_succ (top : Nat) (oracle : Nat → List α) (fuel skip : Nat) (out : List α) :
    getAllAux top oracle (fuel + 1) skip out =
      if (oracle skip).isEmpty then some out
      else if (oracle skip).length < top then some (out ++ oracle skip)
      else getAllAux top oracle fuel (skip + top) (out ++ oracle skip) := rfl

theorem getAllAux_fullPages_none :
    ∀ fuel skip out, getAllAux 1000 fullPages fuel skip out = none := by
  intro fuel
  induction fuel with
  | zero => intro skip out; rfl
  | succ n ih =>
    intro skip out
    have h1 : (fullPages skip).isEmpty = false := rfl
    have h2 : ¬ (fullPages skip).length < 1000 := by simp [fullPages]
    rw [getAllAux_succ, if_neg (by simp [h1]), if_neg h2]
    exact ih (skip + 1000) (out ++ fullPages skip)

theorem getAllAux_stops (top : Nat) (oracle : Nat → List α) (htop : 0 < top) :
    ∀ (n skip : Nat) (out : List α),
      (∀ i, i < n → top ≤ (oracle (skip + i * top)).length) →
      (oracle (skip + n * top)).length < top →
      getAllAux top oracle (n + 1) skip out = some (out ++ pagesFrom oracle top skip (n + 1)) := by
  intro n
  induction n with
  | zero =>
    intro skip out _ hshort
    simp only [Nat.zero_mul, Nat.add_zero] at hshort
    by_cases hres : (oracle skip).isEmpty
    · have : oracle skip = [] := List.isEmpty_iff.mp hres
      rw [getAllAux_succ, if_pos hres]
      simp [pagesFrom, this]
    · rw [getAllAux_succ, if_neg hres, if_pos hshort]
      simp [pagesFrom]
  | succ n ih =>
    intro skip out hfull hshort
    have hfull0 : top ≤ (oracle (skip + 0 * top)).length :=
      hfull 0 (Nat.succ_pos n)
    simp only [Nat.zero_mul, Nat.add_zero] at hfull0
    have hne : ¬ (oracle skip).isEmpty = true := by
      cases h : oracle skip with
      | nil => rw [h] at hfull0; simp at hfull0; omega
      | cons a l => simp
    have hnotshort : ¬ (oracle skip).length < top := by omega
    have hrec := ih (skip + top) (out ++ oracle skip)
      (fun i hi => by
        have := hfull (i + 1) (by omega)
        have harith : skip + (i + 1) * top = skip + top + i * top := by ring
        rwa [harith] at this)
      (by
        have harith : skip + (n + 1) * top = skip + top + n * top := by ring
        rwa [harith] at hshort)
    rw [getAllAux_succ, if_neg hne, if_neg hnotshort, hrec]
    simp [pagesFrom, List.append_assoc]

/-! ## C9: pagination termination -/

/-- **C9** (corrected).  The claim says `get_all` terminates on *every* sequence
of server responses, stopping at a short page, an empty page, or a fixed page
cap.  The source loop has no page cap, so against a server that always returns
a full page it never stops: for every amount of fuel the loop is still running.
This refutes the claim as stated. -/
theorem C9_counterexample : getAllTerminates 1000 fullPages = False := by
  apply eq_false
  rintro ⟨fuel, h⟩
  rw [getAllFuel, getAllAux_fullPages_none fuel 0 []] at h
  simp at h

/-- **C9** (amended): `get_all` terminates whenever the server eventually
returns a page shorter than the page size (in particular an empty page), and it
then returns the concatenation of all fetched pages; there is no page cap. -/
theorem C9_amended (oracle : Nat → List α) (top n : Nat) (htop : 0 < top)
    (hfull : ∀ i, i < n → top ≤ (oracle (i * top)).length)
    (hshort : (oracle (n * top)).length < top) :
    getAllFuel top oracle (n + 1) = some (pagesFrom oracle top 0 (n + 1)) := by
  unfold getAllFuel
  have h := getAllAux_stops top oracle htop n 0 []
    (fun i hi => by simpa using hfull i hi)
    (by simpa using hshort)
  simpa using h

/-- Witness for C9_amended: a concrete two-page server (pages `[0,1]` then
`[2]`) on which `get_all` stops after the short page and returns `[0, 1, 2]`. -/
theorem C9_amended_witness :
    getAllFuel 2 (fun skip => if skip = 0 then [0, 1] else if skip = 2 then [2] else []) 2 =
      some [0, 1, 2] := by
  have h := C9_amended (fun skip => if skip = 0 then [0, 1] else if skip = 2 then [2] else [])
    2 1 (by decide)
    (by intro i hi; interval_cases i; decide)
    (by decide)
  rw [h]
  rfl

/-! ## C10: normalize_base_url idempotence -/

/-- **C10** (corrected).  The claim says `normalize_base_url` is idempotent on
every input.  It is not: stripping trailing slashes can expose trailing
whitespace, so for `"a /"` one application yields `"a "` while a second yields
`"a"`. -/
theorem C10_counterexample :
    normalize_base_url (normalize_base_url "a /") ≠ normalize_base_url "a /" := by
  decide

theorem dropWhile_length_le (p : α → Bool) (l : List α) :
    (l.dropWhile p).length ≤ l.length := by
  induction l with
  | nil => simp [List.dropWhile]
  | cons x xs ih =>
    by_cases h : p x
    · simp [List.dropWhile, h]
      omega
    · simp [List.dropWhile, h]

theorem dropWhile_eq_or_length_lt (p : α → Bool) (l : List α) :
    l.dropWhile p = l ∨ (l.dropWhile p).length < l.length := by
  cases l with
  | nil => exact Or.inl rfl
  | cons x xs =>
    by_cases h : p x
    · right
      simp only [List.dropWhile, h]
      have := dropWhile_length_le p xs
      simp
      omega
    · left
      simp [List.dropWhile, h]

theorem pyStripL_eq_or_length_lt (l : List Char) :
    pyStripL l = l ∨ (pyStripL l).length < l.length := by
  unfold pyStripL
  rcases dropWhile_eq_or_length_lt isPySpace l with h1 | h1
  · rw [h1]
    rcases dropWhile_eq_or_length_lt isPySpace l.reverse with h2 | h2
    · rw [h2]
      exact Or.inl (List.reverse_reverse l)
    · right
      rw [List.length_reverse]
      rw [List.length_reverse] at h2
      exact h2
  · right
    have hle := dropWhile_length_le isPySpace (l.dropWhile isPySpace).reverse
    rw [List.length_reverse] at hle
    rw [List.length_reverse]
    omega

theorem pyStrip_length_lt (s : String) (h : pyStrip s ≠ s) :
    (pyStrip s).data.length < s.data.length := by
  rcases pyStripL_eq_or_length_lt s.data with h1 | h1
  · exfalso
    apply h
    show String.mk (pyStripL s.data) = s
    rw [h1]
  · exact h1

theorem rstripSlash_length_le (s : String) :
    (rstripSlash s).data.length ≤ s.data.length := by
  show ((s.data.reverse.dropWhile (fun c => c == '/')).reverse).length ≤ s.data.length
  rw [List.length_reverse]
  have := dropWhile_length_le (fun c => c == '/') s.data.reverse
  rw [List.length_reverse] at this
  exact this

/-- A string not fixed by `strip` (it carries surrounding whitespace) strictly
shrinks under `normalize_base_url`, so it is not a fixed point. -/
theorem normalize_not_idem_of_not_stripped (y : String) (h : pyStrip y ≠ y) :
    normalize_base_url y ≠ y := by
  by_cases h0 : pyStrip y = ""
  · unfold normalize_base_url
    rw [if_pos h0]
    intro he
    subst he
    exact h h0
  · unfold normalize_base_url
    rw [if_neg h0]
    intro he
    have hlt := pyStrip_length_lt y h
    have hle := rstripSlash_length_le (pyStrip y)
    have hcomb : (rstripSlash (pyStrip y)).data.length < y.data.length :=
      lt_of_le_of_lt hle hlt
    rw [he] at hcomb
    exact lt_irrefl _ hcomb

/-- **C10** (amended): the output of `normalize_base_url` never has a trailing
slash, and a second application is the identity precisely when the first
output carries no surrounding whitespace (i.e. is fixed by `strip`) — slash
stripping can expose trailing whitespace, and any such output strictly shrinks
under a second application. -/
theorem C10_amended (u : String) :
    rstripSlash (normalize_base_url u) = normalize_base_url u ∧
      (normalize_base_url (normalize_base_url u) = normalize_base_url u ↔
        pyStrip (normalize_base_url u) = normalize_base_url u) := by
  constructor
  · unfold normalize_base_url
    by_cases h : pyStrip u = ""
    · simp only [h, if_pos rfl]
      decide
    · simp only [if_neg h]
      exact rstripSlash_idem (pyStrip u)
  · constructor
    · intro hidem
      by_contra hstrip
      exact normalize_not_idem_of_not_stripped (normalize_base_url u) hstrip hidem
    · intro hfix
      by_cases h0 : normalize_base_url u = ""
      · rw [h0]; decide
      · show (if pyStrip (normalize_base_url u) = "" then ""
          else rstripSlash (pyStrip (normalize_base_url u))) = normalize_base_url u
        rw [hfix, if_neg h0]
        show rstripSlash (if pyStrip u = "" then "" else rstripSlash (pyStrip u)) = _
        by_cases h : pyStrip u = ""
        · exfalso; apply h0; unfold normalize_base_url; rw [if_pos h]
        · rw [if_neg h]
          show rstripSlash (rstripSlash (pyStrip u)) = normalize_base_url u
          rw [rstripSlash_idem]
          unfold normalize_base_url
          rw [if_neg h]

/-- Witness for C10_amended at `" x/"`: output `"x"` has no surrounding
whitespace, so a second application is the identity there. -/
theorem C10_amended_witness :
    rstripSlash (normalize_base_url " x/") = normalize_base_url " x/" ∧
      normalize_base_url (normalize_base_url " x/") = normalize_base_url " x/" := by
  have h := C10_amended " x/"
  exact ⟨h.1, h.2.mpr (by decide)⟩

/-! ## Risk-score helper lemmas -/

theorem pct_zero (ta : Nat) : pct ta 0 = 0 := by
  unfold pct
  split
  · rfl
  · unfold pyRound2
    norm_num

theorem ratTrunc_zero : ratTrunc 0 = 0 := by
  unfold ratTrunc
  norm_num

theorem riskOf_all_zero (ta : Nat) : riskOf 0 0 0 0 ta = 0 := by
  unfold riskOf
  rw [pct_zero]
  norm_num [ratTrunc_zero]

/-! ## C1: acquisition-fatal error handling -/

/-- **C1** (code bug).  The claim (spec §7, E2E scenario B) says that when all
Jobs acquisition attempts fail the run surfaces a fatal failure and no
snapshot is persisted — an all-zero metrics record is never produced.  The
code instead swallows all eight EmpJob failures into the `errors` map,
returns a fully populated all-zero metrics record, and main.py's persistence
guard (which only checks `snapshot_time_utc`) does not block storing it. -/
theorem C1_all_jobs_fail_returns_zero_metrics :
    (run_ec_gates "2026-01-01T00:00:00+00:00" failAllJobsOracle).empjob_rows = 0 ∧
    (run_ec_gates "2026-01-01T00:00:00+00:00" failAllJobsOracle).active_users = 0 ∧
    (run_ec_gates "2026-01-01T00:00:00+00:00" failAllJobsOracle).inactive_users = 0 ∧
    (run_ec_gates "2026-01-01T00:00:00+00:00" failAllJobsOracle).missing_manager_count = 0 ∧
    (run_ec_gates "2026-01-01T00:00:00+00:00" failAllJobsOracle).invalid_org_count = 0 ∧
    (run_ec_gates "2026-01-01T00:00:00+00:00" failAllJobsOracle).missing_email_count = 0 ∧
    (run_ec_gates "2026-01-01T00:00:00+00:00" failAllJobsOracle).duplicate_email_count = 0 ∧
    (run_ec_gates "2026-01-01T00:00:00+00:00" failAllJobsOracle).risk_score = 0 ∧
    (run_ec_gates "2026-01-01T00:00:00+00:00" failAllJobsOracle).errors.length = 8 ∧
    guard_blocks (run_ec_gates "2026-01-01T00:00:00+00:00" failAllJobsOracle) = false := by
  refine ⟨by decide, by decide, by decide, by decide, by decide, by decide, by decide, ?_,
    by decide, by decide⟩
  show riskOf (gatesOrgScan failAllJobsOracle).mmCount (gatesOrgScan failAllJobsOracle).ioCount
    (gatesEmailScan failAllJobsOracle).1
    (duplicate_email_count (gatesEmailScan failAllJobsOracle).2.2)
    (gatesActiveJobs failAllJobsOracle).length = 0
  have h1 : (gatesOrgScan failAllJobsOracle).mmCount = 0 := by decide
  have h2 : (gatesOrgScan failAllJobsOracle).ioCount = 0 := by decide
  have h3 : (gatesEmailScan failAllJobsOracle).1 = 0 := by decide
  have h4 : duplicate_email_count (gatesEmailScan failAllJobsOracle).2.2 = 0 := by decide
  rw [h1, h2, h3, h4]
  exact riskOf_all_zero _

/-! ## C4: contingent-worker fallback -/

/-- **C4** (corrected).  The claim says that when Employments acquisition fails
entirely, a Job-level classification/type heuristic takes over, and with one
job row having `employeeClass = "Contractor"` the contingent count is 1 with a
fallback provenance.  The code has no such heuristic: on double EmpEmployment
failure the count is 0 and the provenance is `"not-available"`, even though
the single fetched job row carries `employeeClass = "Contractor"`. -/
theorem C4_counterexample :
    c4Job.employeeClass = some "Contractor" ∧
    gatesJobs c4Oracle = [c4Job] ∧
    (run_ec_gates "t" c4Oracle).contingent_workers = 0 ∧
    (run_ec_gates "t" c4Oracle).contingent_source = "not-available" := by
  decide

/-- **C4** (amended): if both EmpEmployment attempts fail, there is no
Job-level fallback: the contingent count is 0, the provenance string is
`"not-available"`, and the run still returns a metrics record. -/
theorem C4_amended (orc : SFOracle) (now e1 e2 : String)
    (h1 : orc.empEmpFiltered = .error e1) (h2 : orc.empEmpNoFilter = .error e2) :
    (run_ec_gates now orc).contingent_workers = 0 ∧
    (run_ec_gates now orc).contingent_source = "not-available" := by
  constructor
  · show (gatesContingentUids orc).length = 0
    unfold gatesContingentUids gatesEmpEmp fetchEmpEmp
    rw [h1, h2]
    rfl
  · show (gatesEmpEmp orc).2.1 = "not-available"
    unfold gatesEmpEmp fetchEmpEmp
    rw [h1, h2]


/-- Witness for C4_amended at the concrete double-failure oracle. -/
theorem C4_amended_witness :
    (run_ec_gates "t2" c4Oracle).contingent_workers = 0 ∧
    (run_ec_gates "t2" c4Oracle).contingent_source = "not-available" :=
  C4_amended c4Oracle "t2" "HTTPError: 403 Forbidden" "HTTPError: 403 Forbidden" rfl rfl

/-! ## C5: email hygiene population -/

/-- **C5** (corrected).  The claim says email hygiene is computed only over
active employees that have Users rows, an active employee with no Users row
contributing to neither the missing count nor any duplicate group.  In the
code, an active employee with no Users row gets `u = {}`, hence a null email,
and is counted as missing: here U1 is active, has no Users row, and
`missing_email_count = 1` where the claim requires 0. -/
theorem C5_counterexample :
    gatesUserById c5Oracle = [] ∧
    (run_ec_gates "t" c5Oracle).active_users = 1 ∧
    (run_ec_gates "t" c5Oracle).missing_email_count = 1 ∧
    (gatesEmailScan c5Oracle).2.2 = [] := by
  decide

/-! ## C2: label priority -/

/-- **C2** (corrected).  The claim says the verdict of every employee whose
code is in the non-empty label map is determined solely by whether the label
normalizes to "active", so two employees whose labels both normalize to
"active" are both active.  In the code only the *first* code whose label
normalizes to "active" becomes the run-wide active code; here codes 1 and 2
are both labelled "Active", yet the employee with code 2 is classified
inactive. -/
theorem C2_counterexample :
    lookupCode c2labels 2 = some "Active" ∧
    pyLower (pyStrip "Active") = "active" ∧
    c2inf.1 = some 1 ∧
    (classifyJobs c2inf.1 c2inf.2 [] c2jobs).2.1 = [c2job2] := by
  decide

/-- **C2** (amended): when the label map contains a code whose trimmed
lower-cased label equals "active", the *first* such code becomes the run-wide
active code, and every employee is classified active iff their own status code
equals it — equality of codes, not the employee's own label, decides. -/
theorem C2_amended (labels : List (Int × String)) (uById : List (String × URow))
    (ejById : List (String × JRow)) (codes : List Int) (jobs : List JRow)
    (c : Int) (n : String) (h : findActiveByLabel labels = some (c, n)) :
    (inferActiveCode labels uById ejById codes).1 = some c ∧
    ∀ j, j ∈ jobs →
      (j ∈ (classifyJobs (some c) (some n) uById jobs).1 ↔ j.emplStatus = some c) := by
  constructor
  · unfold inferActiveCode
    rw [h]
  · intro j hj
    simp [classifyJobs, List.mem_filter, hj]

/-- Witness for C2_amended: code 7 labelled `" ACTIVE "` is found, and the job
with code 7 is classified active. -/
theorem C2_amended_witness :
    (inferActiveCode [((7 : Int), " ACTIVE ")] [] [] []).1 = some 7 ∧
    (c2wJob ∈ (classifyJobs (some 7) (some " ACTIVE ") [] [c2wJob]).1 ↔
      c2wJob.emplStatus = some 7) := by
  have h := C2_amended [((7 : Int), " ACTIVE ")] [] [] [] [c2wJob] 7 " ACTIVE " (by decide)
  exact ⟨h.1, h.2 c2wJob (by decide)⟩

/-! ## C3: per-employee fallback for absent status codes -/

/-- **C3** (corrected).  The claim says an employee with an altogether absent
status code falls back to their own identity-source active flag.  In the code
the `User.status` fallback is run-wide: it applies only when *no* active code
could be inferred at all.  Here code 1 is inferred active, B has no code and
an active Users flag, yet B is classified inactive. -/
theorem C3_counterexample :
    _user_is_active c3userB = true ∧
    c3jobB.emplStatus = none ∧
    c3inf.1 = some 1 ∧
    (classifyJobs c3inf.1 c3inf.2 (buildUserById [c3userB]) c3jobs).2.1 = [c3jobB] := by
  decide

/-- **C3** (amended): when an active code was inferred for the run, every
employee with an absent status code is classified inactive regardless of their
Users flag; only when no active code could be inferred does the classification
of every employee fall back to the per-employee Users active flag. -/
theorem C3_amended :
    (∀ (c : Int) (nm : Option String) (uById : List (String × URow))
        (jobs : List JRow) (j : JRow), j ∈ jobs → j.emplStatus = none →
        j ∈ (classifyJobs (some c) nm uById jobs).2.1) ∧
    (∀ (nm : Option String) (uById : List (String × URow))
        (jobs : List JRow) (j : JRow), j ∈ jobs →
        (j ∈ (classifyJobs none nm uById jobs).1 ↔ userFlagActive uById j = true)) := by
  constructor
  · intro c nm uById jobs j hj hcode
    simp [classifyJobs, List.mem_filter, hj, hcode]
  · intro nm uById jobs j hj
    simp [classifyJobs, List.mem_filter, hj]

/-- Witness for C3_amended at the C3 population: B (codeless) lands in the
inactive partition when code 1 is inferred, and under the no-inference branch
B's verdict follows their Users flag. -/
theorem C3_amended_witness :
    c3jobB ∈ (classifyJobs (some 1) (some "Active") (buildUserById [c3userB]) c3jobs).2.1 ∧
    (c3jobB ∈ (classifyJobs none none (buildUserById [c3userB]) c3jobs).1 ↔
      userFlagActive (buildUserById [c3userB]) c3jobB = true) := by
  have h := C3_amended
  exact ⟨h.1 1 (some "Active") (buildUserById [c3userB]) c3jobs c3jobB (by decide) (by decide),
    h.2 none (buildUserById [c3userB]) c3jobs c3jobB (by decide)⟩

/-! ## Email-scan lemmas -/

theorem emailScanAux_cons (uById : List (String × URow)) (uid : String)
    (rest : List String) (cnt : Nat) (sample : List MissEmailEntry)
    (groups : List (String × List String)) :
    emailScanAux uById (uid :: rest) cnt sample groups =
      if is_missing_email_value (some (emailStringOf uById uid)) = true then
        emailScanAux uById rest (cnt + 1)
          (if sample.length < 200 then sample ++ [mkMissEmailEntry uById uid] else sample)
          groups
      else
        emailScanAux uById rest cnt sample
          (dictAppend (pyLower (emailStringOf uById uid)) uid groups) := rfl

theorem emailScanAux_count (uById : List (String × URow)) :
    ∀ (uids : List String) (cnt : Nat) (sample : List MissEmailEntry)
      (groups : List (String × List String)),
      (emailScanAux uById uids cnt sample groups).1 =
        cnt + (uids.filter (fun uid =>
          is_missing_email_value (some (emailStringOf uById uid)))).length := by
  intro uids
  induction uids with
  | nil => intro cnt sample groups; simp [emailScanAux]
  | cons uid rest ih =>
    intro cnt sample groups
    by_cases h : is_missing_email_value (some (emailStringOf uById uid)) = true
    · rw [emailScanAux_cons, if_pos h, ih]
      simp [List.filter_cons, h]
      omega
    · rw [emailScanAux_cons, if_neg h, ih]
      simp [List.filter_cons, h]

theorem emailScanAux_sample_le (uById : List (String × URow)) :
    ∀ (uids : List String) (cnt : Nat) (sample : List MissEmailEntry)
      (groups : List (String × List String)),
      sample.length ≤ cnt → sample.length ≤ 200 →
      (emailScanAux uById uids cnt sample groups).2.1.length ≤
          (emailScanAux uById uids cnt sample groups).1 ∧
        (emailScanAux uById uids cnt sample groups).2.1.length ≤ 200 := by
  intro uids
  induction uids with
  | nil => intro cnt sample groups h1 h2; simpa [emailScanAux] using ⟨h1, h2⟩
  | cons uid rest ih =>
    intro cnt sample groups h1 h2
    by_cases h : is_missing_email_value (some (emailStringOf uById uid)) = true
    · rw [emailScanAux_cons, if_pos h]
      by_cases hlen : sample.length < 200
      · rw [if_pos hlen]
        exact ih (cnt + 1) (sample ++ [mkMissEmailEntry uById uid]) groups
          (by simp; omega) (by simp; omega)
      · rw [if_neg hlen]
        exact ih (cnt + 1) sample groups (by omega) h2
    · rw [emailScanAux_cons, if_neg h]
      exact ih cnt sample _ h1 h2

theorem emailScanAux_sample_mem (uById : List (String × URow)) :
    ∀ (uids : List String) (cnt : Nat) (sample : List MissEmailEntry)
      (groups : List (String × List String)) (e : MissEmailEntry),
      e ∈ (emailScanAux uById uids cnt sample groups).2.1 →
      e ∈ sample ∨ ∃ uid, uid ∈ uids ∧
        is_missing_email_value (some (emailStringOf uById uid)) = true ∧
        e = mkMissEmailEntry uById uid := by
  intro uids
  induction uids with
  | nil => intro cnt sample groups e he; simp [emailScanAux] at he; left; exact he
  | cons uid rest ih =>
    intro cnt sample groups e he
    by_cases h : is_missing_email_value (some (emailStringOf uById uid)) = true
    · rw [emailScanAux_cons, if_pos h] at he
      rcases ih (cnt + 1) _ groups e he with hmem | ⟨u2, hu2, hm2, he2⟩
      · by_cases hlen : sample.length < 200
        · rw [if_pos hlen] at hmem
          rcases List.mem_append.mp hmem with hs | hnew
          · left; exact hs
          · right
            refine ⟨uid, List.mem_cons_self uid rest, h, ?_⟩
            simpa using hnew
        · rw [if_neg hlen] at hmem; left; exact hmem
      · right; exact ⟨u2, List.mem_cons_of_mem uid hu2, hm2, he2⟩
    · rw [emailScanAux_cons, if_neg h] at he
      rcases ih cnt sample _ e he with hmem | ⟨u2, hu2, hm2, he2⟩
      · left; exact hmem
      · right; exact ⟨u2, List.mem_cons_of_mem uid hu2, hm2, he2⟩

theorem dictAppend_forall_key {β : Type} {Q : String → β → Prop} (k : String) (v : β) :
    ∀ (g : List (String × List β)),
      (∀ k0 mem, (k0, mem) ∈ g → ∀ x ∈ mem, Q k0 x) → Q k v →
      ∀ k0 mem, (k0, mem) ∈ dictAppend k v g → ∀ x ∈ mem, Q k0 x := by
  intro g
  induction g with
  | nil =>
    intro _ hv k0 mem hp x hx
    simp [dictAppend] at hp
    obtain ⟨h1, h2⟩ := hp
    subst h1
    subst h2
    simp at hx
    subst hx
    exact hv
  | cons q rest ih =>
    intro hg hv k0 mem hp x hx
    by_cases hk : q.1 = k
    · rw [show dictAppend k v (q :: rest) = (q.1, q.2 ++ [v]) :: rest by
          simp [dictAppend, hk]] at hp
      rcases List.mem_cons.mp hp with heq | hrest
      · have hk0 : k0 = q.1 := congrArg Prod.fst heq
        have hmem : mem = q.2 ++ [v] := congrArg Prod.snd heq
        rw [hmem] at hx
        rcases List.mem_append.mp hx with hold | hnew
        · exact hg k0 q.2 (by rw [hk0]; exact List.mem_cons_self _ _) x hold
        · have hxv : x = v := by simpa using hnew
          rw [hxv, hk0, hk]
          exact hv
      · exact hg k0 mem (List.mem_cons_of_mem _ hrest) x hx
    · rw [show dictAppend k v (q :: rest) = q :: dictAppend k v rest by
          simp [dictAppend, hk]] at hp
      rcases List.mem_cons.mp hp with heq | hrest
      · exact hg k0 mem (heq ▸ List.mem_cons_self _ _) x hx
      · exact ih (fun k1 mem1 hr => hg k1 mem1 (List.mem_cons_of_mem _ hr)) hv k0 mem hrest x hx

theorem dictAppend_nonempty {β : Type} (k : String) (v : β) :
    ∀ (g : List (String × List β)), (∀ p ∈ g, p.2 ≠ []) →
      ∀ p ∈ dictAppend k v g, p.2 ≠ [] := by
  intro g
  induction g with
  | nil =>
    intro _ p hp
    simp [dictAppend] at hp
    subst hp
    simp
  | cons q rest ih =>
    intro hg p hp
    by_cases hk : q.1 = k
    · rw [show dictAppend k v (q :: rest) = (q.1, q.2 ++ [v]) :: rest by
          simp [dictAppend, hk]] at hp
      rcases List.mem_cons.mp hp with heq | hrest
      · subst heq; simp
      · exact hg p (List.mem_cons_of_mem _ hrest)
    · rw [show dictAppend k v (q :: rest) = q :: dictAppend k v rest by
          simp [dictAppend, hk]] at hp
      rcases List.mem_cons.mp hp with heq | hrest
      · subst heq
        exact hg p (List.mem_cons_self _ _)
      · exact ih (fun r hr => hg r (List.mem_cons_of_mem _ hr)) p hrest

theorem emailScanAux_groups_inv (uById : List (String × URow)) :
    ∀ (uids : List String) (cnt : Nat) (sample : List MissEmailEntry)
      (groups : List (String × List String)),
      (∀ k mem, (k, mem) ∈ groups → ∀ uid ∈ mem,
        is_missing_email_value (some (emailStringOf uById uid)) = false ∧
        pyLower (emailStringOf uById uid) = k) →
      (∀ p ∈ groups, p.2 ≠ []) →
      (∀ k mem, (k, mem) ∈ (emailScanAux uById uids cnt sample groups).2.2 →
        ∀ uid ∈ mem,
        is_missing_email_value (some (emailStringOf uById uid)) = false ∧
        pyLower (emailStringOf uById uid) = k) ∧
      (∀ p ∈ (emailScanAux uById uids cnt sample groups).2.2, p.2 ≠ []) := by
  intro uids
  induction uids with
  | nil => intro cnt sample groups hq hne; exact ⟨hq, hne⟩
  | cons uid rest ih =>
    intro cnt sample groups hq hne
    by_cases h : is_missing_email_value (some (emailStringOf uById uid)) = true
    · rw [emailScanAux_cons, if_pos h]
      exact ih (cnt + 1) _ groups hq hne
    · rw [emailScanAux_cons, if_neg h]
      refine ih cnt sample _ ?_ ?_
      · have hv : is_missing_email_value (some (emailStringOf uById uid)) = false ∧
            pyLower (emailStringOf uById uid) = pyLower (emailStringOf uById uid) :=
          ⟨by simpa using h, rfl⟩
        exact dictAppend_forall_key (pyLower (emailStringOf uById uid)) uid groups hq hv
      · exact dictAppend_nonempty _ _ groups hne

theorem emailStringOf_no_row (uById : List (String × URow)) (uid : String)
    (h : dictGet uById uid = none) : emailStringOf uById uid = "" := by
  unfold emailStringOf
  rw [h]

/-! ## C5: email hygiene population, amended -/

/-- **C5** (amended): the missing-email count ranges over *all* active
employees, an active employee with no Users row contributing as a missing
email (their email reads as null); duplicate groups only ever contain
employees that do have a Users row with a non-missing email; and an email
counts as missing exactly when its trimmed lower-cased value is one of the
placeholder tokens. -/
theorem C5_amended (uById : List (String × URow)) (uids : List String) :
    (emailScan uById uids).1 =
        (uids.filter (fun uid =>
          is_missing_email_value (some (emailStringOf uById uid)))).length ∧
    (∀ p ∈ (emailScan uById uids).2.2, ∀ uid ∈ p.2,
        ∃ u, dictGet uById uid = some u ∧
          is_missing_email_value (some (emailStringOf uById uid)) = false) ∧
    (∀ s : String, is_missing_email_value (some s) = true ↔
      pyLower (pyStrip s) ∈
        ["", "none", "no_email", "no email", "null", "n/a", "na", "-", "undefined"]) := by
  refine ⟨by simpa using emailScanAux_count uById uids 0 [] [], ?_, ?_⟩
  · intro p hp uid huid
    have hmiss := ((emailScanAux_groups_inv uById uids 0 [] [] (by simp) (by simp)).1
      p.1 p.2 hp uid huid).1
    rcases hu : dictGet uById uid with _ | u
    · rw [emailStringOf_no_row uById uid hu] at hmiss
      exact absurd hmiss (by decide)
    · exact ⟨u, rfl, hmiss⟩
  · intro s
    simp only [is_missing_email_value, List.mem_cons, List.not_mem_nil, or_false,
      Bool.or_eq_true, beq_iff_eq]
    tauto

/-- Witness for C5_amended at a concrete population: the count formula holds,
W1 (who has a Users row and a real email) sits in a duplicate group, and
`" N/A "` is recognized as a placeholder. -/
theorem C5_amended_witness :
    (emailScan c5wById c5wUids).1 =
        (c5wUids.filter (fun uid =>
          is_missing_email_value (some (emailStringOf c5wById uid)))).length ∧
    (∃ u, dictGet c5wById "W1" = some u ∧
      is_missing_email_value (some (emailStringOf c5wById "W1")) = false) ∧
    (is_missing_email_value (some " N/A ") = true ↔
      pyLower (pyStrip " N/A ") ∈
        ["", "none", "no_email", "no email", "null", "n/a", "na", "-", "undefined"]) := by
  have h := C5_amended c5wById c5wUids
  exact ⟨h.1, h.2.1 ("w@x.com", ["W1", "W1"]) (by decide) "W1" (by decide), h.2.2 " N/A "⟩

/-! ## C6: risk-score bounds -/

theorem ratTrunc_nonneg {q : ℚ} (h : 0 ≤ q) : 0 ≤ ratTrunc q := by
  unfold ratTrunc
  rw [if_neg (not_lt.mpr h)]
  exact Int.floor_nonneg.mpr h

theorem pct_nonneg (ta x : Nat) : 0 ≤ pct ta x := by
  unfold pct
  split
  · exact le_refl 0
  · unfold pyRound2
    have h0 : (0 : ℚ) ≤ (x : ℚ) / (ta : ℚ) * 100 * 100 + 1 / 2 := by positivity
    have h : (0 : ℤ) ≤ round ((x : ℚ) / (ta : ℚ) * 100 * 100) := by
      rw [round_eq]
      exact Int.floor_nonneg.mpr h0
    have hc : (0 : ℚ) ≤ ((round ((x : ℚ) / (ta : ℚ) * 100 * 100) : ℤ) : ℚ) :=
      Int.cast_nonneg.mpr h
    exact div_nonneg hc (by norm_num)

theorem riskOf_bounds (mm io me dup ta : Nat) :
    0 ≤ riskOf mm io me dup ta ∧ riskOf mm io me dup ta ≤ 100 := by
  have h1 : 0 ≤ min 40 (ratTrunc (pct ta mm * 2)) :=
    le_min (by norm_num) (ratTrunc_nonneg (by have := pct_nonneg ta mm; positivity))
  have h2 : 0 ≤ min 40 (ratTrunc (pct ta io * 2)) :=
    le_min (by norm_num) (ratTrunc_nonneg (by have := pct_nonneg ta io; positivity))
  have h3 : 0 ≤ min 10 (ratTrunc (pct ta me)) :=
    le_min (by norm_num) (ratTrunc_nonneg (pct_nonneg ta me))
  have h4 : 0 ≤ min 10 (ratTrunc ((dup : ℚ) / ((max 1 ta : Nat) : ℚ) * 100)) :=
    le_min (by norm_num) (ratTrunc_nonneg (by positivity))
  unfold riskOf
  constructor
  · exact le_min (by norm_num) (by omega)
  · exact min_le_left _ _

/-- **C6** (confirmed).  For every input population the computed `risk_score`
lies in [0, 100], and the risk formula yields 0 whenever the four defect
counts are all zero (for any active-population size, including zero). -/
theorem C6_risk_bounds :
    (∀ (now : String) (orc : SFOracle),
      0 ≤ (run_ec_gates now orc).risk_score ∧ (run_ec_gates now orc).risk_score ≤ 100) ∧
    (∀ mm io me dup ta : Nat, mm = 0 → io = 0 → me = 0 → dup = 0 →
      riskOf mm io me dup ta = 0) := by
  constructor
  · intro now orc
    exact riskOf_bounds _ _ _ _ _
  · intro mm io me dup ta h1 h2 h3 h4
    subst h1; subst h2; subst h3; subst h4
    exact riskOf_all_zero ta

/-- Witness for C6_risk_bounds at the empty oracle and at concrete zero
counts. -/
theorem C6_risk_bounds_witness :
    (0 ≤ (run_ec_gates "t" emptyOracle).risk_score ∧
      (run_ec_gates "t" emptyOracle).risk_score ≤ 100) ∧
    riskOf 0 0 0 0 5 = 0 :=
  ⟨C6_risk_bounds.1 "t" emptyOracle, C6_risk_bounds.2 0 0 0 0 5 rfl rfl rfl rfl⟩

/-! ## Duplicate-email lemmas (C7, C8) -/

theorem length_le_sum_of_one_le (l : List Nat) (h : ∀ x ∈ l, 1 ≤ x) :
    l.length ≤ l.sum := by
  induction l with
  | nil => simp
  | cons a t ih =>
    simp only [List.length_cons, List.sum_cons]
    have ha := h a (List.mem_cons_self a t)
    have ht := ih (fun x hx => h x (List.mem_cons_of_mem a hx))
    omega

theorem dup_count_cons (p : String × List String) (rest : List (String × List String)) :
    duplicate_email_count (p :: rest) =
      (if 1 < p.2.length then p.2.length - 1 else 0) + duplicate_email_count rest := by
  unfold duplicate_email_count
  rw [List.filter_cons]
  by_cases h : 1 < p.2.length
  · simp [h]
  · simp [h]

theorem groupsTotal_cons (p : String × List String) (rest : List (String × List String)) :
    groupsTotal (p :: rest) = p.2.length + groupsTotal rest := by
  simp [groupsTotal]

theorem groupsTotal_ge_length (g : List (String × List String))
    (hne : ∀ p ∈ g, p.2 ≠ []) : g.length ≤ groupsTotal g := by
  unfold groupsTotal
  have h := length_le_sum_of_one_le (g.map (fun p => p.2.length)) ?_
  · rwa [List.length_map] at h
  · intro x hx
    rcases List.mem_map.mp hx with ⟨q, hq, rfl⟩
    have := hne q hq
    have := List.length_pos.mpr this
    omega

theorem dup_count_eq (g : List (String × List String)) (hne : ∀ p ∈ g, p.2 ≠ []) :
    duplicate_email_count g = groupsTotal g - g.length := by
  induction g with
  | nil => rfl
  | cons p rest ih =>
    have hp1 : 1 ≤ p.2.length := by
      have h0 := hne p (List.mem_cons_self p rest)
      have := List.length_pos.mpr h0
      omega
    have hrest := ih (fun q hq => hne q (List.mem_cons_of_mem p hq))
    have hT : rest.length ≤ groupsTotal rest :=
      groupsTotal_ge_length rest (fun q hq => hne q (List.mem_cons_of_mem p hq))
    rw [dup_count_cons, groupsTotal_cons, hrest, List.length_cons]
    by_cases h : 1 < p.2.length
    · rw [if_pos h]; omega
    · rw [if_neg h]; omega

theorem dup_rows_length_le (g : List (String × List String)) :
    (dup_rows g).length ≤ duplicate_email_count g := by
  unfold dup_rows duplicate_email_count
  rw [List.length_map]
  have h := length_le_sum_of_one_le
    ((g.filter (fun p => 1 < p.2.length)).map (fun p => p.2.length - 1)) ?_
  · rwa [List.length_map] at h
  · intro x hx
    rcases List.mem_map.mp hx with ⟨q, hq, rfl⟩
    have := List.of_mem_filter hq
    simp at this
    omega

theorem insertDescByCount_cons (y : DupRow) (ys : List DupRow) (x : DupRow) :
    insertDescByCount (y :: ys) x =
      if x.count ≤ y.count then y :: insertDescByCount ys x else x :: y :: ys := rfl

theorem mem_insertDescByCount :
    ∀ (ys : List DupRow) (x z : DupRow), z ∈ insertDescByCount ys x → z = x ∨ z ∈ ys := by
  intro ys
  induction ys with
  | nil => intro x z hz; simp [insertDescByCount] at hz; exact Or.inl hz
  | cons y ys ih =>
    intro x z hz
    rw [insertDescByCount_cons] at hz
    by_cases h : x.count ≤ y.count
    · rw [if_pos h] at hz
      rcases List.mem_cons.mp hz with rfl | h2
      · exact Or.inr (List.mem_cons_self _ _)
      · rcases ih x z h2 with h3 | h4
        · exact Or.inl h3
        · exact Or.inr (List.mem_cons_of_mem _ h4)
    · rw [if_neg h] at hz
      rcases List.mem_cons.mp hz with rfl | h2
      · exact Or.inl rfl
      · exact Or.inr h2

theorem length_insertDescByCount :
    ∀ (ys : List DupRow) (x : DupRow), (insertDescByCount ys x).length = ys.length + 1 := by
  intro ys
  induction ys with
  | nil => intro x; rfl
  | cons y ys ih =>
    intro x
    rw [insertDescByCount_cons]
    by_cases h : x.count ≤ y.count
    · rw [if_pos h]; simp [ih]
    · rw [if_neg h]; simp

theorem pairwise_insertDescByCount :
    ∀ (ys : List DupRow) (x : DupRow),
      List.Pairwise (fun a b => b.count ≤ a.count) ys →
      List.Pairwise (fun a b => b.count ≤ a.count) (insertDescByCount ys x) := by
  intro ys
  induction ys with
  | nil => intro x _; simp [insertDescByCount]
  | cons y ys ih =>
    intro x hp
    rw [List.pairwise_cons] at hp
    obtain ⟨hy, hys⟩ := hp
    rw [insertDescByCount_cons]
    by_cases h : x.count ≤ y.count
    · rw [if_pos h]
      rw [List.pairwise_cons]
      refine ⟨?_, ih x hys⟩
      intro z hz
      rcases mem_insertDescByCount ys x z hz with rfl | h2
      · exact h
      · exact hy z h2
    · rw [if_neg h]
      rw [List.pairwise_cons]
      refine ⟨?_, List.pairwise_cons.mpr ⟨hy, hys⟩⟩
      intro z hz
      rcases List.mem_cons.mp hz with rfl | h2
      · omega
      · have := hy z h2; omega

theorem pairwise_foldl_insertDesc :
    ∀ (l acc : List DupRow),
      List.Pairwise (fun a b => b.count ≤ a.count) acc →
      List.Pairwise (fun a b => b.count ≤ a.count) (l.foldl insertDescByCount acc) := by
  intro l
  induction l with
  | nil => intro acc h; simpa using h
  | cons x l ih =>
    intro acc h
    simpa [List.foldl_cons] using ih (insertDescByCount acc x) (pairwise_insertDescByCount acc x h)

theorem pairwise_sortByCountDesc (l : List DupRow) :
    List.Pairwise (fun a b => b.count ≤ a.count) (sortByCountDesc l) :=
  pairwise_foldl_insertDesc l [] (by simp)

theorem mem_foldl_insertDesc :
    ∀ (l acc : List DupRow) (z : DupRow),
      z ∈ l.foldl insertDescByCount acc → z ∈ acc ∨ z ∈ l := by
  intro l
  induction l with
  | nil => intro acc z hz; exact Or.inl hz
  | cons x l ih =>
    intro acc z hz
    rw [List.foldl_cons] at hz
    rcases ih (insertDescByCount acc x) z hz with hacc | hl
    · rcases mem_insertDescByCount acc x z hacc with rfl | h2
      · exact Or.inr (List.mem_cons_self _ _)
      · exact Or.inl h2
    · exact Or.inr (List.mem_cons_of_mem _ hl)

theorem length_foldl_insertDesc :
    ∀ (l acc : List DupRow), (l.foldl insertDescByCount acc).length = acc.length + l.length := by
  intro l
  induction l with
  | nil => intro acc; simp
  | cons x l ih =>
    intro acc
    rw [List.foldl_cons, ih, length_insertDescByCount]
    simp
    omega

theorem length_sortByCountDesc (l : List DupRow) : (sortByCountDesc l).length = l.length := by
  unfold sortByCountDesc
  rw [length_foldl_insertDesc]
  simp

theorem mem_sortByCountDesc (l : List DupRow) (z : DupRow)
    (hz : z ∈ sortByCountDesc l) : z ∈ l := by
  rcases mem_foldl_insertDesc l [] z hz with h | h
  · simp at h
  · exact h

/-! ## C7: duplicate-email arithmetic -/

/-- **C7** (confirmed).  Duplicate emails are counted as excess registrations:
the duplicate count equals the number of grouped (non-missing) emails minus
the number of distinct normalized values (each group of size `s` contributing
`s - 1`); groups are keyed by the trimmed lower-cased email of their members;
the sample is sorted by descending group size; and on the synthetic population
with emails {a,a,a,b,b,c} the count is 3 with no missing emails. -/
theorem C7_duplicate_email_arithmetic :
    (∀ (uById : List (String × URow)) (uids : List String),
      duplicate_email_count (emailScan uById uids).2.2 =
          groupsTotal (emailScan uById uids).2.2 - ((emailScan uById uids).2.2).length ∧
      (∀ k mem, (k, mem) ∈ (emailScan uById uids).2.2 → ∀ uid ∈ mem,
          pyLower (emailStringOf uById uid) = k) ∧
      List.Pairwise (fun a b => b.count ≤ a.count)
        (duplicate_email_sample (emailScan uById uids).2.2)) ∧
    ((emailScan c7UById c7Uids).1 = 0 ∧
      duplicate_email_count (emailScan c7UById c7Uids).2.2 = 3) := by
  constructor
  · intro uById uids
    have hinv := emailScanAux_groups_inv uById uids 0 [] [] (by simp) (by simp)
    refine ⟨dup_count_eq _ hinv.2, ?_, ?_⟩
    · intro k mem hkm uid huid
      exact (hinv.1 k mem hkm uid huid).2
    · exact List.Pairwise.sublist (List.take_sublist 200 _)
        (pairwise_sortByCountDesc (dup_rows (emailScan uById uids).2.2))
  · constructor
    · decide
    · decide

/-- Witness for C7 at the synthetic population: the excess formula holds, U1's
normalized email is the key of its group, and the sample is sorted. -/
theorem C7_witness :
    (duplicate_email_count (emailScan c7UById c7Uids).2.2 =
        groupsTotal (emailScan c7UById c7Uids).2.2 -
          ((emailScan c7UById c7Uids).2.2).length) ∧
    pyLower (emailStringOf c7UById "U1") = "a@x.com" ∧
    List.Pairwise (fun a b => b.count ≤ a.count)
      (duplicate_email_sample (emailScan c7UById c7Uids).2.2) := by
  have h := C7_duplicate_email_arithmetic.1 c7UById c7Uids
  exact ⟨h.1, h.2.1 "a@x.com" ["U1", "U2", "U3"] (by decide) "U1" (by decide), h.2.2⟩

/-! ## Org/manager-scan lemmas (C8) -/

theorem orgScanAux_cons (labels : List (Int × String)) (j : JRow) (rest : List JRow)
    (st : OrgScanState) :
    orgScanAux labels (j :: rest) st = orgScanAux labels rest (orgStep labels j st) := rfl

theorem orgStep_mmCount (labels : List (Int × String)) (j : JRow) (st : OrgScanState) :
    (orgStep labels j st).mmCount =
      st.mmCount + (if is_blank j.managerId then 1 else 0) := by
  by_cases h2 : (missingFields j).isEmpty <;> by_cases h1 : is_blank j.managerId <;>
    simp [orgStep, h1, h2]

theorem orgStep_mmSample (labels : List (Int × String)) (j : JRow) (st : OrgScanState) :
    (orgStep labels j st).mmSample =
      if is_blank j.managerId then
        (if st.mmSample.length < 200 then st.mmSample ++ [mkMMEntry labels j]
          else st.mmSample)
      else st.mmSample := by
  by_cases h2 : (missingFields j).isEmpty <;> by_cases h1 : is_blank j.managerId <;>
    simp [orgStep, h1, h2]

theorem orgStep_ioCount (labels : List (Int × String)) (j : JRow) (st : OrgScanState) :
    (orgStep labels j st).ioCount =
      st.ioCount + (if (missingFields j).isEmpty then 0 else 1) := by
  by_cases h2 : (missingFields j).isEmpty <;> by_cases h1 : is_blank j.managerId <;>
    simp [orgStep, h1, h2]

theorem orgStep_ioSample (labels : List (Int × String)) (j : JRow) (st : OrgScanState) :
    (orgStep labels j st).ioSample =
      if (missingFields j).isEmpty then st.ioSample
      else
        (if st.ioSample.length < 200 then st.ioSample ++ [mkIOEntry labels j]
          else st.ioSample) := by
  by_cases h2 : (missingFields j).isEmpty <;> by_cases h1 : is_blank j.managerId <;>
    simp [orgStep, h1, h2]

theorem orgScanAux_mmCount (labels : List (Int × String)) :
    ∀ (l : List JRow) (st : OrgScanState),
      (orgScanAux labels l st).mmCount =
        st.mmCount + (l.filter (fun j => is_blank j.managerId)).length := by
  intro l
  induction l with
  | nil => intro st; simp [orgScanAux]
  | cons j rest ih =>
    intro st
    rw [orgScanAux_cons, ih, orgStep_mmCount, List.filter_cons]
    by_cases h : is_blank j.managerId
    · simp [h]; omega
    · simp [h]

theorem orgScanAux_ioCount (labels : List (Int × String)) :
    ∀ (l : List JRow) (st : OrgScanState),
      (orgScanAux labels l st).ioCount =
        st.ioCount + (l.filter (fun j => !(missingFields j).isEmpty)).length := by
  intro l
  induction l with
  | nil => intro st; simp [orgScanAux]
  | cons j rest ih =>
    intro st
    rw [orgScanAux_cons, ih, orgStep_ioCount, List.filter_cons]
    by_cases h : (missingFields j).isEmpty
    · simp [h]
    · simp [h]; omega

theorem orgScanAux_samples_le (labels : List (Int × String)) :
    ∀ (l : List JRow) (st : OrgScanState),
      st.mmSample.length ≤ st.mmCount → st.mmSample.length ≤ 200 →
      st.ioSample.length ≤ st.ioCount → st.ioSample.length ≤ 200 →
      ((orgScanAux labels l st).mmSample.length ≤ (orgScanAux labels l st).mmCount ∧
        (orgScanAux labels l st).mmSample.length ≤ 200 ∧
        (orgScanAux labels l st).ioSample.length ≤ (orgScanAux labels l st).ioCount ∧
        (orgScanAux labels l st).ioSample.length ≤ 200) := by
  intro l
  induction l with
  | nil => intro st h1 h2 h3 h4; exact ⟨h1, h2, h3, h4⟩
  | cons j rest ih =>
    intro st h1 h2 h3 h4
    rw [orgScanAux_cons]
    apply ih
    · rw [orgStep_mmSample, orgStep_mmCount]
      split_ifs with hb hl
      · simp only [List.length_append, List.length_singleton]; omega
      · omega
      · omega
    · rw [orgStep_mmSample]
      split_ifs with hb hl
      · simp only [List.length_append, List.length_singleton]; omega
      · omega
      · omega
    · rw [orgStep_ioSample, orgStep_ioCount]
      split_ifs with hb hl
      · omega
      · simp only [List.length_append, List.length_singleton]; omega
      · omega
    · rw [orgStep_ioSample]
      split_ifs with hb hl
      · omega
      · simp only [List.length_append, List.length_singleton]; omega
      · omega

theorem orgStep_mmSample_mem (labels : List (Int × String)) (j : JRow)
    (st : OrgScanState) (e : MMEntry) (he : e ∈ (orgStep labels j st).mmSample) :
    e ∈ st.mmSample ∨ (is_blank j.managerId = true ∧ e = mkMMEntry labels j) := by
  rw [orgStep_mmSample] at he
  split_ifs at he with hb hl
  · rcases List.mem_append.mp he with h | h
    · exact Or.inl h
    · exact Or.inr ⟨hb, by simpa using h⟩
  · exact Or.inl he
  · exact Or.inl he

theorem orgStep_ioSample_mem (labels : List (Int × String)) (j : JRow)
    (st : OrgScanState) (e : IOEntry) (he : e ∈ (orgStep labels j st).ioSample) :
    e ∈ st.ioSample ∨ ((missingFields j).isEmpty = false ∧ e = mkIOEntry labels j) := by
  rw [orgStep_ioSample] at he
  split_ifs at he with hb hl
  · exact Or.inl he
  · rcases List.mem_append.mp he with h | h
    · exact Or.inl h
    · exact Or.inr ⟨by simpa using hb, by simpa using h⟩
  · exact Or.inl he

theorem orgScanAux_mmSample_mem (labels : List (Int × String)) :
    ∀ (l : List JRow) (st : OrgScanState) (e : MMEntry),
      e ∈ (orgScanAux labels l st).mmSample →
      e ∈ st.mmSample ∨ ∃ j, j ∈ l ∧ is_blank j.managerId = true ∧
        e = mkMMEntry labels j := by
  intro l
  induction l with
  | nil => intro st e he; exact Or.inl he
  | cons j rest ih =>
    intro st e he
    rw [orgScanAux_cons] at he
    rcases ih (orgStep labels j st) e he with hstep | ⟨j2, hj2, hb2, he2⟩
    · rcases orgStep_mmSample_mem labels j st e hstep with h | ⟨hb, hmk⟩
      · exact Or.inl h
      · exact Or.inr ⟨j, List.mem_cons_self _ _, hb, hmk⟩
    · exact Or.inr ⟨j2, List.mem_cons_of_mem _ hj2, hb2, he2⟩

theorem orgScanAux_ioSample_mem (labels : List (Int × String)) :
    ∀ (l : List JRow) (st : OrgScanState) (e : IOEntry),
      e ∈ (orgScanAux labels l st).ioSample →
      e ∈ st.ioSample ∨ ∃ j, j ∈ l ∧ (missingFields j).isEmpty = false ∧
        e = mkIOEntry labels j := by
  intro l
  induction l with
  | nil => intro st e he; exact Or.inl he
  | cons j rest ih =>
    intro st e he
    rw [orgScanAux_cons] at he
    rcases ih (orgStep labels j st) e he with hstep | ⟨j2, hj2, hb2, he2⟩
    · rcases orgStep_ioSample_mem labels j st e hstep with h | ⟨hb, hmk⟩
      · exact Or.inl h
      · exact Or.inr ⟨j, List.mem_cons_self _ _, hb, hmk⟩
    · exact Or.inr ⟨j2, List.mem_cons_of_mem _ hj2, hb2, he2⟩

/-! ## C8: sample consistency theorems -/

/-- **C8** (confirmed).  For each of the four checks (missing manager, invalid
org, missing email, duplicate email): the count equals the size of the
measured set, the sample length is at most `min(count, 200)`, and every sample
entry is the image of a member of the measured set — so no count is ever
smaller than the number of samples shown for it. -/
theorem C8_sample_consistency (now : String) (orc : SFOracle) :
    ((run_ec_gates now orc).missing_manager_count =
        ((gatesActiveJobs orc).filter (fun j => is_blank j.managerId)).length ∧
      (run_ec_gates now orc).missing_manager_sample.length ≤
        min ((run_ec_gates now orc).missing_manager_count) 200 ∧
      ∀ e ∈ (run_ec_gates now orc).missing_manager_sample,
        ∃ j, j ∈ gatesActiveJobs orc ∧ is_blank j.managerId = true ∧
          e = mkMMEntry (gatesLabels orc) j) ∧
    ((run_ec_gates now orc).invalid_org_count =
        ((gatesActiveJobs orc).filter (fun j => !(missingFields j).isEmpty)).length ∧
      (run_ec_gates now orc).invalid_org_sample.length ≤
        min ((run_ec_gates now orc).invalid_org_count) 200 ∧
      ∀ e ∈ (run_ec_gates now orc).invalid_org_sample,
        ∃ j, j ∈ gatesActiveJobs orc ∧ (missingFields j).isEmpty = false ∧
          e = mkIOEntry (gatesLabels orc) j) ∧
    ((run_ec_gates now orc).missing_email_count =
        ((gatesActiveUids orc).filter (fun uid =>
          is_missing_email_value (some (emailStringOf (gatesUserById orc) uid)))).length ∧
      (run_ec_gates now orc).missing_email_sample.length ≤
        min ((run_ec_gates now orc).missing_email_count) 200 ∧
      ∀ e ∈ (run_ec_gates now orc).missing_email_sample,
        ∃ uid, uid ∈ gatesActiveUids orc ∧
          is_missing_email_value (some (emailStringOf (gatesUserById orc) uid)) = true ∧
          e = mkMissEmailEntry (gatesUserById orc) uid) ∧
    ((run_ec_gates now orc).duplicate_email_sample.length ≤
        min ((run_ec_gates now orc).duplicate_email_count) 200 ∧
      ∀ e ∈ (run_ec_gates now orc).duplicate_email_sample,
        ∃ p, p ∈ (gatesEmailScan orc).2.2 ∧ 1 < p.2.length ∧
          e = DupRow.mk p.1 p.2.length (p.2.take 10)) := by
  have hsle := orgScanAux_samples_le (gatesLabels orc) (gatesActiveJobs orc)
    ⟨0, [], 0, [], initFieldCounts⟩ (by simp) (by simp) (by simp) (by simp)
  have hele := emailScanAux_sample_le (gatesUserById orc) (gatesActiveUids orc) 0 [] []
    (by simp) (by simp)
  refine ⟨⟨?_, ?_, ?_⟩, ⟨?_, ?_, ?_⟩, ⟨?_, ?_, ?_⟩, ?_, ?_⟩
  · show (gatesOrgScan orc).mmCount = _
    unfold gatesOrgScan orgScan
    simpa using orgScanAux_mmCount (gatesLabels orc) (gatesActiveJobs orc)
      ⟨0, [], 0, [], initFieldCounts⟩
  · exact le_min hsle.1 hsle.2.1
  · intro e he
    rcases orgScanAux_mmSample_mem (gatesLabels orc) (gatesActiveJobs orc)
      ⟨0, [], 0, [], initFieldCounts⟩ e he with h0 | hex
    · simp at h0
    · exact hex
  · show (gatesOrgScan orc).ioCount = _
    unfold gatesOrgScan orgScan
    simpa using orgScanAux_ioCount (gatesLabels orc) (gatesActiveJobs orc)
      ⟨0, [], 0, [], initFieldCounts⟩
  · exact le_min hsle.2.2.1 hsle.2.2.2
  · intro e he
    rcases orgScanAux_ioSample_mem (gatesLabels orc) (gatesActiveJobs orc)
      ⟨0, [], 0, [], initFieldCounts⟩ e he with h0 | hex
    · simp at h0
    · exact hex
  · show (gatesEmailScan orc).1 = _
    unfold gatesEmailScan emailScan
    simpa using emailScanAux_count (gatesUserById orc) (gatesActiveUids orc) 0 [] []
  · exact le_min hele.1 hele.2
  · intro e he
    rcases emailScanAux_sample_mem (gatesUserById orc) (gatesActiveUids orc) 0 [] [] e he
      with h0 | hex
    · simp at h0
    · exact hex
  · show (duplicate_email_sample (gatesEmailScan orc).2.2).length ≤
      min (duplicate_email_count (gatesEmailScan orc).2.2) 200
    unfold duplicate_email_sample
    rw [List.length_take, length_sortByCountDesc]
    refine le_min (le_trans (min_le_right _ _) (dup_rows_length_le _)) (min_le_left _ _)
  · intro e he
    have h1 : e ∈ sortByCountDesc (dup_rows (gatesEmailScan orc).2.2) :=
      List.mem_of_mem_take he
    have h2 := mem_sortByCountDesc _ e h1
    unfold dup_rows at h2
    rcases List.mem_map.mp h2 with ⟨p, hp, rfl⟩
    have hp2 := List.of_mem_filter hp
    have hp3 := List.mem_of_mem_filter hp
    exact ⟨p, hp3, by simpa using hp2, rfl⟩

/-- Witness for C8 at a concrete population with one blank manager, one
incomplete org row, one placeholder email and one duplicated email pair. -/
theorem C8_witness :
    ((run_ec_gates "t" c8Oracle).missing_manager_sample.length ≤
      min ((run_ec_gates "t" c8Oracle).missing_manager_count) 200) ∧
    (∃ j, j ∈ gatesActiveJobs c8Oracle ∧ is_blank j.managerId = true ∧
      mkMMEntry (gatesLabels c8Oracle) c8j1 = mkMMEntry (gatesLabels c8Oracle) j) ∧
    ((run_ec_gates "t" c8Oracle).invalid_org_sample.length ≤
      min ((run_ec_gates "t" c8Oracle).invalid_org_count) 200) ∧
    (∃ j, j ∈ gatesActiveJobs c8Oracle ∧ (missingFields j).isEmpty = false ∧
      mkIOEntry (gatesLabels c8Oracle) c8j1 = mkIOEntry (gatesLabels c8Oracle) j) ∧
    ((run_ec_gates "t" c8Oracle).missing_email_sample.length ≤
      min ((run_ec_gates "t" c8Oracle).missing_email_count) 200) ∧
    (∃ uid, uid ∈ gatesActiveUids c8Oracle ∧
      is_missing_email_value
        (some (emailStringOf (gatesUserById c8Oracle) uid)) = true ∧
      mkMissEmailEntry (gatesUserById c8Oracle) "U1" =
        mkMissEmailEntry (gatesUserById c8Oracle) uid) ∧
    ((run_ec_gates "t" c8Oracle).duplicate_email_sample.length ≤
      min ((run_ec_gates "t" c8Oracle).duplicate_email_count) 200) ∧
    (∃ p, p ∈ (gatesEmailScan c8Oracle).2.2 ∧ 1 < p.2.length ∧
      DupRow.mk "d@x.com" 2 ["U2", "U3"] = DupRow.mk p.1 p.2.length (p.2.take 10)) := by
  have h := C8_sample_consistency "t" c8Oracle
  exact ⟨h.1.2.1, h.1.2.2 _ (by decide), h.2.1.2.1, h.2.1.2.2 _ (by decide),
    h.2.2.1.2.1, h.2.2.1.2.2 _ (by decide), h.2.2.2.1, h.2.2.2.2 _ (by decide)⟩
